import Mathlib

/-!
# Verification of the credit calculator (`src/main.py`)

A shallow embedding of the calculation engine of the repository: rate-factor
derivation, maximum-installment and credit-limit sizing, and amortization
schedule generation.  Python floats are modelled by exact rationals `ℚ`;
Python's `round(x, d)` (round-half-to-even on the decimal value) is modelled
by `roundTo d`.  A Python `ValueError`/`ZeroDivisionError` is modelled by
`Except CalcError`.
-/

attribute [local semireducible] Rat.mul Rat.inv Rat.add Rat.sub Rat.ofScientific

deriving instance DecidableEq for Except

/-- Round-half-to-even to the nearest integer (the rounding rule of Python's
built-in `round`).  Generic over any linear ordered field with a floor, so the
same definition serves `ℚ` (computably) and `ℝ` (for the analysis of the
periodic-rate constant). -/
def roundHalfEvenInt {α : Type} [LinearOrderedField α] [FloorRing α] (x : α) : ℤ :=
  if x - Int.floor x < 1 / 2 then Int.floor x
  else if 1 / 2 < x - Int.floor x then Int.floor x + 1
  else if Int.floor x % 2 = 0 then Int.floor x else Int.floor x + 1

/-- Python's `round(x, d)`: round-half-to-even at `d` decimal places. -/
def roundTo {α : Type} [LinearOrderedField α] [FloorRing α] (d : ℕ) (x : α) : α :=
  (roundHalfEvenInt (x * 10 ^ d) : α) / 10 ^ d

/-- `PERCENTAGE_BY_CREDIT_SCORE = {"A": 1, "B": 0.75, "C": 0.5, "D": 0.25, "E": 0.1}`. -/
def PERCENTAGE_BY_CREDIT_SCORE : List (String × ℚ) :=
  [("A", 1), ("B", 75 / 100), ("C", 50 / 100), ("D", 25 / 100), ("E", 10 / 100)]

/-- `MAX_LIMITS = {"A": 30000, "others": 20000}`. -/
def MAX_LIMITS : List (String × ℚ) := [("A", 30000), ("others", 20000)]

/-- `TAEG = 0.15`. -/
def TAEG : ℚ := 15 / 100

/-- The exact real value of `(1 + TAEG) ** (30 / 365) - 1` (line 8 of
`src/main.py` before the 6-decimal rounding). -/
noncomputable def periodicRateExact : ℝ := (1 + (TAEG : ℝ)) ^ ((30 : ℝ) / 365) - 1

/-- `PERIODIC_RATE = round((1 + TAEG) ** (30 / 365) - 1, 6)`.  The rounded
value is `0.011554`; the theorem `PERIODIC_RATE_eq_roundTo_exact` below proves
that this rational is exactly `roundTo 6` of `periodicRateExact`. -/
def PERIODIC_RATE : ℚ := 11554 / 1000000

/-- Errors the Python code can raise: `ValueError("Invalid credit score")`
and `ZeroDivisionError` (float division by zero). -/
inductive CalcError where
  | invalidCreditScore : CalcError
  | zeroDivision : CalcError
deriving DecidableEq, Repr

/-- The `CreditCalculator` class: holds `taeg` and `periodic_rate`, with the
module-level constants as default values. -/
structure CreditCalculator where
  taeg : ℚ := TAEG
  periodic_rate : ℚ := PERIODIC_RATE
deriving DecidableEq, Repr

/-- `CreditCalculator()` — the instance the application constructs. -/
def defaultCalculator : CreditCalculator := {}

/-- `compute_rate_factor`: returns
`periodic_rate * (1 + periodic_rate) ** periods / ((1 + periodic_rate) ** periods - 1)`;
a zero denominator raises `ZeroDivisionError` in Python. -/
def CreditCalculator.compute_rate_factor (c : CreditCalculator) (periods : ℤ) :
    Except CalcError ℚ :=
  let denom := (1 + c.periodic_rate) ^ periods - 1
  if denom = 0 then .error .zeroDivision
  else .ok (c.periodic_rate * (1 + c.periodic_rate) ^ periods / denom)

/-- `compute_max_installment`: raises `ValueError` when the credit score is not
a key of `PERCENTAGE_BY_CREDIT_SCORE`; otherwise returns
`max_limit * percentage * rate_factor` with `max_limit = MAX_LIMITS["A"]` for
grade `"A"` and `MAX_LIMITS["others"]` otherwise. -/
def CreditCalculator.compute_max_installment (c : CreditCalculator)
    (credit_score : String) (periods : ℤ) : Except CalcError ℚ :=
  match PERCENTAGE_BY_CREDIT_SCORE.lookup credit_score with
  | none => .error .invalidCreditScore
  | some percentage =>
      let max_limit : ℚ :=
        if credit_score = "A" then (MAX_LIMITS.lookup "A").getD 0
        else (MAX_LIMITS.lookup "others").getD 0
      (c.compute_rate_factor periods).map fun rate_factor =>
        max_limit * percentage * rate_factor

/-- `compute_limit`: the three-step computation of lines 63–76 of
`src/main.py`, rounding to 2 decimals at each step. -/
def CreditCalculator.compute_limit (c : CreditCalculator) (credit_score : String)
    (sum_inflow_6m : ℚ) (periods : ℤ) : Except CalcError ℚ :=
  let monthly_installment_capacity := roundTo 2 (sum_inflow_6m / 6 / 3)
  (c.compute_max_installment credit_score periods).map fun mi =>
    let final_installment := roundTo 2 (min monthly_installment_capacity mi)
    roundTo 2 (final_installment * (1 - (1 + c.periodic_rate) ^ (-periods))
      / c.periodic_rate)

/-- One row of the amortization table (a row of the pandas DataFrame built at
lines 108–116 of `src/main.py`). -/
structure InstallmentRow where
  installment_number : ℤ
  monthly_installment : ℚ
  interest : ℚ
  capital : ℚ
  remaining_capital : ℚ
deriving DecidableEq, Repr

/-- `interest = round(amount * self.periodic_rate, 2)` (line 105). -/
def interestOf (r a : ℚ) : ℚ := roundTo 2 (a * r)

/-- `capital = round(monthly_installment - interest, 2)` (line 106). -/
def capitalOf (r m a : ℚ) : ℚ := roundTo 2 (m - interestOf r a)

/-- `remaining_capital = round(amount - capital, 2)` (line 107) — the
unclamped value, which is carried into the next iteration (line 117). -/
def remainingOf (r m a : ℚ) : ℚ := roundTo 2 (a - capitalOf r m a)

/-- The row appended at iteration `i` when the running balance is `a`; the
stored remaining capital is clamped with `max(0, ...)` (line 114). -/
def scheduleRow (r m : ℚ) (i : ℤ) (a : ℚ) : InstallmentRow :=
  ⟨i, m, interestOf r a, capitalOf r m a, max 0 (remainingOf r m a)⟩

/-- The loop `for i in range(1, periods + 1)` of lines 104–117: `n` iterations
remain, the next installment number is `i`, the running balance is `a`. -/
def installmentRows (r m : ℚ) : ℕ → ℤ → ℚ → List InstallmentRow
  | 0, _, _ => []
  | n + 1, i, a =>
      scheduleRow r m i a :: installmentRows r m n (i + 1) (remainingOf r m a)

/-- `compute_monthly_installments`: fixes
`monthly_installment = round(rate_factor * amount, 2)` and generates the
amortization rows.  `range(1, periods + 1)` has `max 0 periods` elements. -/
def CreditCalculator.compute_monthly_installments (c : CreditCalculator)
    (amount : ℚ) (periods : ℤ) : Except CalcError (ℚ × List InstallmentRow) :=
  (c.compute_rate_factor periods).map fun rate_factor =>
    let monthly_installment := roundTo 2 (rate_factor * amount)
    (monthly_installment,
      installmentRows c.periodic_rate monthly_installment periods.toNat 1 amount)

/-- The five recognized credit-score grades (the keys of
`PERCENTAGE_BY_CREDIT_SCORE`). -/
def grades : List String := ["A", "B", "C", "D", "E"]

/-- A rational representable with `d` decimal places. -/
def IsRounded (d : ℕ) (x : ℚ) : Prop := ∃ z : ℤ, x = z / 10 ^ d

/-- The value computed at lines 25–27 of `src/main.py` (when the denominator
is nonzero, so that no `ZeroDivisionError` is raised). -/
def rate_factor_val (c : CreditCalculator) (periods : ℤ) : ℚ :=
  c.periodic_rate * (1 + c.periodic_rate) ^ periods
    / ((1 + c.periodic_rate) ^ periods - 1)

/-- The running balance entering iteration `k + 1` of the amortization loop
(`k` applications of the carried-forward, unclamped `remaining_capital`). -/
def balanceAfter (r m a : ℚ) : ℕ → ℚ
  | 0 => a
  | k + 1 => remainingOf r m (balanceAfter r m a k)

/-- `annuitySum r n = 1 + (1+r) + ... + (1+r)^(n-1)`, the factor governing how
per-period rounding errors accumulate in the schedule. -/
def annuitySum (r : ℚ) : ℕ → ℚ
  | 0 => 0
  | k + 1 => annuitySum r k * (1 + r) + 1

/-! ## Basic properties of the rounding function -/

theorem abs_roundHalfEvenInt_sub_le {α : Type} [LinearOrderedField α] [FloorRing α]
    (x : α) : |(roundHalfEvenInt x : α) - x| ≤ 1 / 2 := by
  have h1 : (Int.floor x : α) ≤ x := Int.floor_le x
  have h2 : x < Int.floor x + 1 := Int.lt_floor_add_one x
  unfold roundHalfEvenInt
  split_ifs <;> rw [abs_le] <;> push_cast <;> constructor <;> linarith

theorem abs_roundTo_sub_le {α : Type} [LinearOrderedField α] [FloorRing α]
    (d : ℕ) (x : α) : |roundTo d x - x| ≤ 1 / (2 * 10 ^ d) := by
  have hp : (0 : α) < 10 ^ d := by positivity
  have key : |roundTo d x - x|
      = |(roundHalfEvenInt (x * 10 ^ d) : α) - x * 10 ^ d| / 10 ^ d := by
    rw [roundTo, eq_comm, ← abs_of_pos hp, ← abs_div]
    congr 1
    field_simp
    ring
  rw [key, div_le_iff₀ hp]
  have h10 : (1 : α) / (2 * 10 ^ d) * 10 ^ d = 1 / 2 := by
    field_simp
    ring
  rw [h10]
  exact abs_roundHalfEvenInt_sub_le _

theorem isRounded_roundTo (d : ℕ) (x : ℚ) : IsRounded d (roundTo d x) :=
  ⟨roundHalfEvenInt (x * 10 ^ d), rfl⟩

theorem roundHalfEvenInt_intCast (z : ℤ) : roundHalfEvenInt (z : ℚ) = z := by
  unfold roundHalfEvenInt
  simp

theorem IsRounded.roundTo_eq (d : ℕ) {x : ℚ} (h : IsRounded d x) : roundTo d x = x := by
  obtain ⟨z, rfl⟩ := h
  have hp : (10 : ℚ) ^ d ≠ 0 := by positivity
  rw [roundTo, div_mul_cancel₀ _ hp, roundHalfEvenInt_intCast]

theorem IsRounded.sub (d : ℕ) {x y : ℚ} (hx : IsRounded d x) (hy : IsRounded d y) :
    IsRounded d (x - y) := by
  obtain ⟨a, rfl⟩ := hx
  obtain ⟨b, rfl⟩ := hy
  exact ⟨a - b, by push_cast; ring⟩

theorem roundTo_zero {α : Type} [LinearOrderedField α] [FloorRing α] (d : ℕ) :
    roundTo d (0 : α) = 0 := by
  rw [roundTo, zero_mul]
  have : roundHalfEvenInt (0 : α) = 0 := by
    unfold roundHalfEvenInt
    simp
  rw [this]
  simp

/-! ## The rate factor -/

theorem one_lt_base {c : CreditCalculator} (hr : 0 < c.periodic_rate) :
    1 < 1 + c.periodic_rate := by linarith

theorem one_lt_zpow_base {c : CreditCalculator} (hr : 0 < c.periodic_rate)
    {n : ℤ} (hn : 1 ≤ n) : 1 < (1 + c.periodic_rate) ^ n :=
  one_lt_zpow₀ (one_lt_base hr) (by omega)

theorem compute_rate_factor_eq_ok {c : CreditCalculator} (hr : 0 < c.periodic_rate)
    {n : ℤ} (hn : 1 ≤ n) :
    c.compute_rate_factor n = .ok (rate_factor_val c n) := by
  have h := one_lt_zpow_base hr hn
  have hne : (1 + c.periodic_rate) ^ n - 1 ≠ 0 := by linarith
  simp [CreditCalculator.compute_rate_factor, rate_factor_val, hne]

theorem rate_factor_val_pos {c : CreditCalculator} (hr : 0 < c.periodic_rate)
    {n : ℤ} (hn : 1 ≤ n) : 0 < rate_factor_val c n := by
  have h := one_lt_zpow_base hr hn
  have hx : (0 : ℚ) < (1 + c.periodic_rate) ^ n := zpow_pos (by linarith) n
  exact div_pos (mul_pos hr hx) (by linarith)

theorem default_periodic_rate_pos : 0 < defaultCalculator.periodic_rate := by decide

/-! ## C5 / C8: algebra of the rate factor -/

/-- C5: for every integer `n ≥ 1` and periodic rate `r > 0`, the annuity
factor returned by `compute_rate_factor` and the present-value factor
`(1 - (1+r)^(-n)) / r` used in the third step of `compute_limit` are exact
reciprocals: their product is `1` over exact arithmetic. -/
theorem C5_annuity_factors_reciprocal (c : CreditCalculator)
    (hr : 0 < c.periodic_rate) (n : ℤ) (hn : 1 ≤ n) (v : ℚ)
    (hv : c.compute_rate_factor n = .ok v) :
    v * ((1 - (1 + c.periodic_rate) ^ (-n)) / c.periodic_rate) = 1 := by
  rw [compute_rate_factor_eq_ok hr hn] at hv
  injection hv with hv
  subst hv
  have hx1 : 1 < (1 + c.periodic_rate) ^ n := one_lt_zpow_base hr hn
  have hx0 : (1 + c.periodic_rate) ^ n ≠ 0 := by linarith
  have hxm1 : (1 + c.periodic_rate) ^ n - 1 ≠ 0 := by linarith
  have hr0 : c.periodic_rate ≠ 0 := ne_of_gt hr
  rw [zpow_neg, rate_factor_val]
  field_simp
  ring

/-- Witness for C5 at the default calculator with `n = 3`. -/
theorem C5_witness :
    (0 < defaultCalculator.periodic_rate ∧ 1 ≤ (3 : ℤ) ∧
      defaultCalculator.compute_rate_factor 3 = .ok (rate_factor_val defaultCalculator 3)) ∧
    rate_factor_val defaultCalculator 3 *
      ((1 - (1 + defaultCalculator.periodic_rate) ^ (-(3 : ℤ))) / defaultCalculator.periodic_rate) = 1 :=
  ⟨⟨by decide, by decide, by decide⟩,
    C5_annuity_factors_reciprocal defaultCalculator (by decide) 3 (by decide) _ (by decide)⟩

/-- C8: with a positive periodic rate, every successfully computed rate factor
at `n ≥ 1` is positive, and the rate factor at `n + 1` is no larger than the
one at `n` (monotonically non-increasing in the period count). -/
theorem C8_rate_factor_pos_antitone (c : CreditCalculator)
    (hr : 0 < c.periodic_rate) (n : ℤ) (hn : 1 ≤ n) (v w : ℚ)
    (hv : c.compute_rate_factor n = .ok v)
    (hw : c.compute_rate_factor (n + 1) = .ok w) :
    0 < v ∧ w ≤ v := by
  rw [compute_rate_factor_eq_ok hr hn] at hv
  rw [compute_rate_factor_eq_ok hr (by omega : 1 ≤ n + 1)] at hw
  injection hv with hv
  injection hw with hw
  subst hv
  subst hw
  refine ⟨rate_factor_val_pos hr hn, ?_⟩
  have h1r : (0 : ℚ) < 1 + c.periodic_rate := by linarith
  have hx1 : 1 < (1 + c.periodic_rate) ^ n := one_lt_zpow_base hr hn
  have hx0 : (0 : ℚ) < (1 + c.periodic_rate) ^ n := by linarith
  have hxx : (1 + c.periodic_rate) ^ (n + 1) = (1 + c.periodic_rate) ^ n * (1 + c.periodic_rate) :=
    zpow_add_one₀ (ne_of_gt h1r) n
  have hx1' : 1 < (1 + c.periodic_rate) ^ n * (1 + c.periodic_rate) := by
    rw [← hxx]; exact one_lt_zpow_base hr (by omega)
  rw [rate_factor_val, rate_factor_val, hxx,
    div_le_div_iff₀ (by linarith) (by linarith)]
  have key : c.periodic_rate * ((1 + c.periodic_rate) ^ n * (1 + c.periodic_rate))
        * ((1 + c.periodic_rate) ^ n - 1)
      + c.periodic_rate * c.periodic_rate * (1 + c.periodic_rate) ^ n
      = c.periodic_rate * (1 + c.periodic_rate) ^ n
        * ((1 + c.periodic_rate) ^ n * (1 + c.periodic_rate) - 1) := by
    ring
  nlinarith [mul_pos (mul_pos hr hr) hx0]

/-- Witness for C8 at the default calculator with `n = 3`. -/
theorem C8_witness :
    (0 < defaultCalculator.periodic_rate ∧ 1 ≤ (3 : ℤ) ∧
      defaultCalculator.compute_rate_factor 3 = .ok (rate_factor_val defaultCalculator 3) ∧
      defaultCalculator.compute_rate_factor (3 + 1) = .ok (rate_factor_val defaultCalculator 4)) ∧
    (0 < rate_factor_val defaultCalculator 3 ∧
      rate_factor_val defaultCalculator 4 ≤ rate_factor_val defaultCalculator 3) :=
  ⟨⟨by decide, by decide, by decide, by decide⟩,
    C8_rate_factor_pos_antitone defaultCalculator (by decide) 3 (by decide) _ _
      (by decide) (by decide)⟩

/-! ## C4: grade validation and the maximum installment -/

theorem lookup_percentage_eq_none_iff (g : String) :
    PERCENTAGE_BY_CREDIT_SCORE.lookup g = none ↔ g ∉ grades := by
  constructor
  · intro h hg
    have : PERCENTAGE_BY_CREDIT_SCORE.lookup g ≠ none := by
      fin_cases hg <;> decide
    exact this h
  · intro h
    simp only [grades, List.mem_cons, List.not_mem_nil, or_false, not_or] at h
    obtain ⟨h1, h2, h3, h4, h5⟩ := h
    have e1 : (g == "A") = false := beq_eq_false_iff_ne.mpr h1
    have e2 : (g == "B") = false := beq_eq_false_iff_ne.mpr h2
    have e3 : (g == "C") = false := beq_eq_false_iff_ne.mpr h3
    have e4 : (g == "D") = false := beq_eq_false_iff_ne.mpr h4
    have e5 : (g == "E") = false := beq_eq_false_iff_ne.mpr h5
    simp [PERCENTAGE_BY_CREDIT_SCORE, List.lookup, e1, e2, e3, e4, e5]

theorem except_map_eq_invalid_iff (e : Except CalcError ℚ) (f : ℚ → ℚ) :
    e.map f = .error .invalidCreditScore ↔ e = .error .invalidCreditScore := by
  cases e <;> simp [Except.map]

theorem compute_max_installment_formula (g : String) (p : ℤ) (hp : 1 ≤ p)
    (pct : ℚ) (hpct : PERCENTAGE_BY_CREDIT_SCORE.lookup g = some pct) :
    defaultCalculator.compute_max_installment g p =
      .ok ((if g = "A" then (30000 : ℚ) else 20000) * pct
        * rate_factor_val defaultCalculator p) := by
  have hrf := compute_rate_factor_eq_ok default_periodic_rate_pos hp
  rw [CreditCalculator.compute_max_installment, hpct, hrf]
  by_cases hA : g = "A" <;> simp [hA, Except.map, MAX_LIMITS, List.lookup]

/-- C4: `compute_max_installment` fails with the invalid-grade error exactly on
grades outside `{A, B, C, D, E}`; on a recognized grade (with `periods ≥ 1`) it
returns `ceiling × percentage × rateFactor` where the ceiling is `30000` for
grade `A` and `20000` for the other four grades; and `compute_limit` fails with
the invalid-grade error the same way. -/
theorem C4_grade_validation (g : String) (p : ℤ) (hp : 1 ≤ p) (inflow : ℚ) :
    (g ∉ grades ↔
      defaultCalculator.compute_max_installment g p = .error .invalidCreditScore) ∧
    (∀ pct, PERCENTAGE_BY_CREDIT_SCORE.lookup g = some pct →
      defaultCalculator.compute_max_installment g p =
        .ok ((if g = "A" then (30000 : ℚ) else 20000) * pct
          * rate_factor_val defaultCalculator p)) ∧
    (g ∉ grades ↔
      defaultCalculator.compute_limit g inflow p = .error .invalidCreditScore) := by
  have hmax : ∀ pct, PERCENTAGE_BY_CREDIT_SCORE.lookup g = some pct →
      defaultCalculator.compute_max_installment g p =
        .ok ((if g = "A" then (30000 : ℚ) else 20000) * pct
          * rate_factor_val defaultCalculator p) :=
    fun pct hpct => compute_max_installment_formula g p hp pct hpct
  have herr : defaultCalculator.compute_max_installment g p = .error .invalidCreditScore
      ↔ g ∉ grades := by
    rcases hpct : PERCENTAGE_BY_CREDIT_SCORE.lookup g with _ | pct
    · rw [← lookup_percentage_eq_none_iff] at *
      simp [CreditCalculator.compute_max_installment, hpct]
    · rw [hmax pct hpct]
      have hg : g ∈ grades := by
        by_contra h
        rw [← lookup_percentage_eq_none_iff] at h
        simp [h] at hpct
      simp [hg]
  refine ⟨herr.symm, hmax, ?_⟩
  rw [← herr]
  rw [CreditCalculator.compute_limit, except_map_eq_invalid_iff]

/-- Witness for C4 at grade `"F"` (invalid) and grade `"B"` (valid), `p = 3`. -/
theorem C4_witness :
    (1 ≤ (3 : ℤ)) ∧
    ("F" ∉ grades ↔
      defaultCalculator.compute_max_installment "F" 3 = .error .invalidCreditScore) ∧
    (∀ pct, PERCENTAGE_BY_CREDIT_SCORE.lookup "B" = some pct →
      defaultCalculator.compute_max_installment "B" 3 =
        .ok ((if "B" = "A" then (30000 : ℚ) else 20000) * pct
          * rate_factor_val defaultCalculator 3)) ∧
    ("F" ∉ grades ↔
      defaultCalculator.compute_limit "F" 6000 3 = .error .invalidCreditScore) :=
  ⟨by decide,
    (C4_grade_validation "F" 3 (by decide) 6000).1,
    (C4_grade_validation "B" 3 (by decide) 6000).2.1,
    (C4_grade_validation "F" 3 (by decide) 6000).2.2⟩

/-! ## C1: the three-step limit computation -/

/-- C1: for a recognized grade, non-negative inflow and `periods ≥ 1`,
`compute_limit` returns exactly the three-step computation with 2-decimal
rounding applied at each step: the rounded monthly capacity, then the rounded
minimum with the maximum installment, then the rounded present-value-of-annuity
conversion at the stored periodic rate. -/
theorem C1_compute_limit_three_steps (g : String) (hg : g ∈ grades)
    (inflow : ℚ) (h0 : 0 ≤ inflow) (p : ℤ) (hp : 1 ≤ p) (mi : ℚ)
    (hmi : defaultCalculator.compute_max_installment g p = .ok mi) :
    defaultCalculator.compute_limit g inflow p =
      .ok (roundTo 2 (roundTo 2 (min (roundTo 2 (inflow / 6 / 3)) mi)
        * (1 - (1 + defaultCalculator.periodic_rate) ^ (-p))
        / defaultCalculator.periodic_rate)) := by
  rw [CreditCalculator.compute_limit, hmi]
  rfl

/-- Witness for C1 at `("A", 6000, 3)`. -/
theorem C1_witness :
    ("A" ∈ grades ∧ 0 ≤ (6000 : ℚ) ∧ 1 ≤ (3 : ℤ) ∧
      defaultCalculator.compute_max_installment "A" 3 =
        .ok (30000 * 1 * rate_factor_val defaultCalculator 3)) ∧
    defaultCalculator.compute_limit "A" 6000 3 =
      .ok (roundTo 2 (roundTo 2 (min (roundTo 2 ((6000 : ℚ) / 6 / 3))
        (30000 * 1 * rate_factor_val defaultCalculator 3))
        * (1 - (1 + defaultCalculator.periodic_rate) ^ (-(3 : ℤ)))
        / defaultCalculator.periodic_rate)) :=
  ⟨⟨by decide, by decide, by decide, by decide⟩,
    C1_compute_limit_three_steps "A" (by decide) 6000 (by decide) 3 (by decide) _
      (by decide)⟩

/-! ## C7: zero inflow gives a zero limit -/

/-- C7: for every recognized grade and every `periods ≥ 1`,
`compute_limit(grade, 0, periods)` succeeds and returns exactly `0`. -/
theorem C7_zero_inflow_zero_limit (g : String) (hg : g ∈ grades)
    (p : ℤ) (hp : 1 ≤ p) :
    defaultCalculator.compute_limit g 0 p = .ok 0 := by
  have hr := default_periodic_rate_pos
  have hrf := rate_factor_val_pos hr hp
  have hcap : roundTo 2 ((0 : ℚ) / 6 / 3) = 0 := by
    rw [show (0 : ℚ) / 6 / 3 = 0 by norm_num, roundTo_zero]
  have key : ∀ mi : ℚ, 0 ≤ mi →
      roundTo 2 (roundTo 2 (min (roundTo 2 ((0 : ℚ) / 6 / 3)) mi)
        * (1 - (1 + defaultCalculator.periodic_rate) ^ (-p))
        / defaultCalculator.periodic_rate) = 0 := by
    intro mi hmi
    rw [hcap, min_eq_left hmi, roundTo_zero, zero_mul, zero_div, roundTo_zero]
  have hstep := compute_max_installment_formula g p hp
  fin_cases hg
  · rw [CreditCalculator.compute_limit, hstep 1 (by decide)]
    simp only [Except.map]
    exact congrArg Except.ok
      (key _ (mul_nonneg (mul_nonneg (by decide) (by decide)) hrf.le))
  · rw [CreditCalculator.compute_limit, hstep (75 / 100) (by decide)]
    simp only [Except.map]
    exact congrArg Except.ok
      (key _ (mul_nonneg (mul_nonneg (by decide) (by decide)) hrf.le))
  · rw [CreditCalculator.compute_limit, hstep (50 / 100) (by decide)]
    simp only [Except.map]
    exact congrArg Except.ok
      (key _ (mul_nonneg (mul_nonneg (by decide) (by decide)) hrf.le))
  · rw [CreditCalculator.compute_limit, hstep (25 / 100) (by decide)]
    simp only [Except.map]
    exact congrArg Except.ok
      (key _ (mul_nonneg (mul_nonneg (by decide) (by decide)) hrf.le))
  · rw [CreditCalculator.compute_limit, hstep (10 / 100) (by decide)]
    simp only [Except.map]
    exact congrArg Except.ok
      (key _ (mul_nonneg (mul_nonneg (by decide) (by decide)) hrf.le))

/-- Witness for C7 at grade `"E"`, `p = 3`. -/
theorem C7_witness :
    ("E" ∈ grades ∧ 1 ≤ (3 : ℤ)) ∧
      defaultCalculator.compute_limit "E" 0 3 = .ok 0 :=
  ⟨⟨by decide, by decide⟩, C7_zero_inflow_zero_limit "E" (by decide) 3 (by decide)⟩

/-! ## C3: there is no `periods < 1` validation in the code -/

/-- C3 (refutation of the claimed validation): the code performs no
`periods < 1` check.  `compute_rate_factor(-1)` silently returns `-1.0`
(no error at all); `compute_monthly_installments(9000, -1)` silently returns
a *negative* "installment" of `-9000.0` together with an empty schedule; and
`periods = 0` raises `ZeroDivisionError` only *after* evaluating the
denominator `(1+r)**0 - 1`, not an invalid-periods rejection before
arithmetic. -/
theorem C3_no_invalid_periods_check :
    defaultCalculator.compute_rate_factor (-1) = .ok (-1) ∧
    defaultCalculator.compute_monthly_installments 9000 (-1) = .ok (-9000, []) ∧
    defaultCalculator.compute_rate_factor 0 = .error .zeroDivision ∧
    defaultCalculator.compute_monthly_installments 9000 0 = .error .zeroDivision := by
  refine ⟨by decide, by decide, by decide, by decide⟩

/-! ## The amortization loop: structural lemmas -/

theorem installmentRows_length (r m : ℚ) :
    ∀ (n : ℕ) (i : ℤ) (a : ℚ), (installmentRows r m n i a).length = n := by
  intro n
  induction n with
  | zero => intro i a; rfl
  | succ n ih => intro i a; simp [installmentRows, ih]

theorem balanceAfter_succ_front (r m a : ℚ) :
    ∀ k : ℕ, balanceAfter r m a (k + 1) = balanceAfter r m (remainingOf r m a) k := by
  intro k
  induction k with
  | zero => rfl
  | succ k ih =>
      show remainingOf r m (balanceAfter r m a (k + 1)) = _
      rw [ih]
      rfl

theorem installmentRows_get (r m : ℚ) :
    ∀ (n : ℕ) (a : ℚ) (i : ℤ) (k : ℕ) (hk : k < (installmentRows r m n i a).length),
      (installmentRows r m n i a).get ⟨k, hk⟩ =
        scheduleRow r m (i + k) (balanceAfter r m a k) := by
  intro n
  induction n with
  | zero => intro a i k hk; simp [installmentRows] at hk
  | succ n ih =>
      intro a i k hk
      match k with
      | 0 => simp [installmentRows, balanceAfter]
      | k + 1 =>
          have hk' : k < (installmentRows r m n (i + 1) (remainingOf r m a)).length := by
            rw [installmentRows_length] at hk ⊢
            omega
          have : (installmentRows r m (n + 1) i a).get ⟨k + 1, hk⟩ =
              (installmentRows r m n (i + 1) (remainingOf r m a)).get ⟨k, hk'⟩ := rfl
          rw [this, ih, balanceAfter_succ_front]
          congr 1
          push_cast
          ring

theorem isRounded_interestOf (r a : ℚ) : IsRounded 2 (interestOf r a) :=
  isRounded_roundTo 2 _

theorem isRounded_balanceAfter (r m a : ℚ) (ha : IsRounded 2 a) :
    ∀ k : ℕ, IsRounded 2 (balanceAfter r m a k)
  | 0 => ha
  | _ + 1 => isRounded_roundTo 2 _

/-- Because the installment and the interest both carry exactly 2 decimals,
the inner rounding in `capital = round(installment - interest, 2)` is the
identity: the capital portion is *exactly* installment minus interest. -/
theorem capitalOf_eq (r m a : ℚ) (hm : IsRounded 2 m) :
    capitalOf r m a = m - interestOf r a :=
  IsRounded.roundTo_eq 2 (IsRounded.sub 2 hm (isRounded_interestOf r a))

/-- Likewise `remaining = round(amount - capital, 2)` is exact whenever the
running balance has 2 decimals. -/
theorem remainingOf_eq (r m a : ℚ) (hm : IsRounded 2 m) (ha : IsRounded 2 a) :
    remainingOf r m a = a - capitalOf r m a :=
  IsRounded.roundTo_eq 2 (IsRounded.sub 2 ha (isRounded_roundTo 2 _))

theorem mem_installmentRows_invariant (r m : ℚ) (hm : IsRounded 2 m) :
    ∀ (n : ℕ) (i : ℤ) (a : ℚ) (row : InstallmentRow),
      row ∈ installmentRows r m n i a →
      row.monthly_installment = row.interest + row.capital ∧
        0 ≤ row.remaining_capital := by
  intro n
  induction n with
  | zero => intro i a row hrow; simp [installmentRows] at hrow
  | succ n ih =>
      intro i a row hrow
      rcases List.mem_cons.mp hrow with hhead | htail
      · subst hhead
        refine ⟨?_, le_max_left 0 _⟩
        show m = interestOf r a + capitalOf r m a
        rw [capitalOf_eq r m a hm]
        ring
      · exact ih (i + 1) (remainingOf r m a) row htail

/-! ## C10: per-row invariants -/

/-- C10: in every schedule `compute_monthly_installments` returns (any
calculator, any amount, any period count), every row satisfies
`Monthly Installment = Interest + Capital` — in fact exactly, which is
stronger than "up to rounding", because both quantities already carry
2 decimals — and every stored `Remaining Capital` is non-negative. -/
theorem C10_row_invariants (c : CreditCalculator) (amount : ℚ) (p : ℤ)
    (inst : ℚ) (rows : List InstallmentRow)
    (h : c.compute_monthly_installments amount p = .ok (inst, rows)) :
    ∀ row ∈ rows,
      row.monthly_installment = row.interest + row.capital ∧
        0 ≤ row.remaining_capital := by
  rcases hrf : c.compute_rate_factor p with e | rf
  · rw [CreditCalculator.compute_monthly_installments, hrf] at h
    exact absurd h (by simp [Except.map])
  · rw [CreditCalculator.compute_monthly_installments, hrf] at h
    simp only [Except.map, Except.ok.injEq, Prod.mk.injEq] at h
    obtain ⟨hinst, hrows⟩ := h
    intro row hrow
    rw [← hrows] at hrow
    exact mem_installmentRows_invariant c.periodic_rate _
      (hinst ▸ isRounded_roundTo 2 _) p.toNat 1 amount row hrow

/-- Witness for C10: the second row of the `(9000, 3)` schedule of the
default calculator. -/
theorem C10_witness :
    (defaultCalculator.compute_monthly_installments 9000 3 =
      .ok (306959 / 100,
        [⟨1, 306959 / 100, 10399 / 100, 14828 / 5, 30172 / 5⟩,
         ⟨2, 306959 / 100, 1743 / 25, 299987 / 100, 303453 / 100⟩,
         ⟨3, 306959 / 100, 1753 / 50, 303453 / 100, 0⟩]) ∧
      (⟨2, 306959 / 100, 1743 / 25, 299987 / 100, 303453 / 100⟩ : InstallmentRow) ∈
        ([⟨1, 306959 / 100, 10399 / 100, 14828 / 5, 30172 / 5⟩,
          ⟨2, 306959 / 100, 1743 / 25, 299987 / 100, 303453 / 100⟩,
          ⟨3, 306959 / 100, 1753 / 50, 303453 / 100, 0⟩] : List InstallmentRow)) ∧
    ((306959 / 100 : ℚ) = 1743 / 25 + 299987 / 100 ∧
      (0 : ℚ) ≤ 303453 / 100) :=
  ⟨⟨by decide, by decide⟩,
    C10_row_invariants defaultCalculator 9000 3 (306959 / 100)
      [⟨1, 306959 / 100, 10399 / 100, 14828 / 5, 30172 / 5⟩,
       ⟨2, 306959 / 100, 1743 / 25, 299987 / 100, 303453 / 100⟩,
       ⟨3, 306959 / 100, 1753 / 50, 303453 / 100, 0⟩] (by decide)
      ⟨2, 306959 / 100, 1743 / 25, 299987 / 100, 303453 / 100⟩ (by decide)⟩

/-! ## C2: exact structure of the generated schedule -/

/-- C2: a successful `compute_monthly_installments(amount, periods)` call of
the default calculator fixes `installment = round(rateFactor × amount, 2)`
once; the schedule has exactly `periods` rows; row `k` (0-based) is built from
the running balance `balanceAfter ... k` by `interest = round(balance × r, 2)`,
`capital = round(installment − interest, 2)`,
`remaining = round(balance − capital, 2)` with `max 0 remaining` stored for
display (`scheduleRow`); and the *unclamped* remaining value is the balance
carried into row `k + 1`'s interest computation. -/
theorem C2_schedule_structure (amount : ℚ) (h0 : 0 ≤ amount) (p : ℤ) (hp : 1 ≤ p)
    (inst : ℚ) (rows : List InstallmentRow)
    (h : defaultCalculator.compute_monthly_installments amount p = .ok (inst, rows)) :
    inst = roundTo 2 (rate_factor_val defaultCalculator p * amount) ∧
    rows.length = p.toNat ∧
    ∀ (k : ℕ) (hk : k < rows.length),
      rows.get ⟨k, hk⟩ =
        scheduleRow PERIODIC_RATE inst (1 + k) (balanceAfter PERIODIC_RATE inst amount k) ∧
      balanceAfter PERIODIC_RATE inst amount (k + 1) =
        remainingOf PERIODIC_RATE inst (balanceAfter PERIODIC_RATE inst amount k) := by
  rw [CreditCalculator.compute_monthly_installments,
    compute_rate_factor_eq_ok default_periodic_rate_pos hp] at h
  simp only [Except.map, Except.ok.injEq, Prod.mk.injEq] at h
  obtain ⟨hinst, hrows⟩ := h
  subst hrows
  subst hinst
  refine ⟨rfl, installmentRows_length _ _ _ _ _, ?_⟩
  intro k hk
  exact ⟨installmentRows_get PERIODIC_RATE _ p.toNat amount 1 k hk, rfl⟩

/-- Witness for C2 at `(9000, 3)`, checking the middle row `k = 1`. -/
theorem C2_witness :
    (0 ≤ (9000 : ℚ) ∧ 1 ≤ (3 : ℤ) ∧
      defaultCalculator.compute_monthly_installments 9000 3 =
        .ok (306959 / 100,
          [⟨1, 306959 / 100, 10399 / 100, 14828 / 5, 30172 / 5⟩,
           ⟨2, 306959 / 100, 1743 / 25, 299987 / 100, 303453 / 100⟩,
           ⟨3, 306959 / 100, 1753 / 50, 303453 / 100, 0⟩])) ∧
    ((306959 / 100 : ℚ) =
        roundTo 2 (rate_factor_val defaultCalculator 3 * 9000) ∧
      ([⟨1, 306959 / 100, 10399 / 100, 14828 / 5, 30172 / 5⟩,
        ⟨2, 306959 / 100, 1743 / 25, 299987 / 100, 303453 / 100⟩,
        ⟨3, 306959 / 100, 1753 / 50, 303453 / 100, 0⟩] : List InstallmentRow).length
        = (3 : ℤ).toNat) :=
  ⟨⟨by decide, by decide, by decide⟩,
    (C2_schedule_structure 9000 (by decide) 3 (by decide) (306959 / 100)
      [⟨1, 306959 / 100, 10399 / 100, 14828 / 5, 30172 / 5⟩,
       ⟨2, 306959 / 100, 1743 / 25, 299987 / 100, 303453 / 100⟩,
       ⟨3, 306959 / 100, 1753 / 50, 303453 / 100, 0⟩] (by decide)).1,
    (C2_schedule_structure 9000 (by decide) 3 (by decide) (306959 / 100)
      [⟨1, 306959 / 100, 10399 / 100, 14828 / 5, 30172 / 5⟩,
       ⟨2, 306959 / 100, 1743 / 25, 299987 / 100, 303453 / 100⟩,
       ⟨3, 306959 / 100, 1753 / 50, 303453 / 100, 0⟩] (by decide)).2.1⟩

/-! ## C9: round-trip of the schedule -/

theorem annuitySum_nonneg (r : ℚ) (hr : 0 ≤ r) : ∀ n : ℕ, 0 ≤ annuitySum r n := by
  intro n
  induction n with
  | zero => simp [annuitySum]
  | succ n ih => rw [annuitySum]; nlinarith

theorem annuitySum_mono (r : ℚ) (hr : 0 ≤ r) {j k : ℕ} (h : j ≤ k) :
    annuitySum r j ≤ annuitySum r k := by
  induction k with
  | zero =>
      have hj : j = 0 := by omega
      subst hj
      exact le_refl _
  | succ k ih =>
      rcases Nat.lt_or_ge j (k + 1) with hlt | hge
      · refine le_trans (ih (by omega)) ?_
        show annuitySum r k ≤ annuitySum r k * (1 + r) + 1
        nlinarith [annuitySum_nonneg r hr k]
      · have hj : j = k + 1 := by omega
        subst hj
        exact le_refl _

theorem annuitySum_eq (r : ℚ) (hr : r ≠ 0) (n : ℕ) :
    annuitySum r n = ((1 + r) ^ n - 1) / r := by
  induction n with
  | zero => simp [annuitySum]
  | succ n ih =>
      rw [annuitySum, ih, pow_succ]
      field_simp
      ring

theorem abs_roundTo2_sub_le (x : ℚ) : |roundTo 2 x - x| ≤ 1 / 200 := by
  have h := abs_roundTo_sub_le 2 x
  norm_num at h
  exact h

/-- Telescoping: because each balance carries exactly 2 decimals, every
capital entry is exactly the decrease of the running balance, so the capital
column sums to `amount - finalBalance` *exactly*. -/
theorem sum_capital_telescope (r m : ℚ) (hm : IsRounded 2 m) :
    ∀ (n : ℕ) (i : ℤ) (a : ℚ), IsRounded 2 a →
      ((installmentRows r m n i a).map InstallmentRow.capital).sum
        = a - balanceAfter r m a n := by
  intro n
  induction n with
  | zero => intro i a ha; simp [installmentRows, balanceAfter]
  | succ n ih =>
      intro i a ha
      rw [installmentRows]
      simp only [List.map_cons, List.sum_cons, scheduleRow]
      rw [ih (i + 1) (remainingOf r m a) (isRounded_roundTo 2 _),
        ← balanceAfter_succ_front]
      have hrem := remainingOf_eq r m a hm ha
      linarith

/-- The accumulated-rounding bound: the computed balance after `n` periods
differs from the exact-arithmetic balance
`a·(1+r)^n − installment·annuitySum n` by at most `annuitySum n / 200`
(one half-cent of interest rounding per period, amplified by interest). -/
theorem balanceAfter_error (r m a : ℚ) (hr : 0 < r) (hm : IsRounded 2 m)
    (ha : IsRounded 2 a) (n : ℕ) :
    |balanceAfter r m a n - (a * (1 + r) ^ n - m * annuitySum r n)|
      ≤ annuitySum r n / 200 := by
  induction n with
  | zero => simp [balanceAfter, annuitySum]
  | succ n ih =>
      have h1r : (0 : ℚ) < 1 + r := by linarith
      have hbal : IsRounded 2 (balanceAfter r m a n) := isRounded_balanceAfter r m a ha n
      have hδ := abs_roundTo2_sub_le (balanceAfter r m a n * r)
      have hstep : balanceAfter r m a (n + 1)
          = balanceAfter r m a n * (1 + r) - m
            + (roundTo 2 (balanceAfter r m a n * r) - balanceAfter r m a n * r) := by
        show remainingOf r m (balanceAfter r m a n) = _
        rw [remainingOf_eq r m _ hm hbal, capitalOf_eq r m _ hm, interestOf]
        ring
      have hkey : balanceAfter r m a (n + 1)
            - (a * (1 + r) ^ (n + 1) - m * annuitySum r (n + 1))
          = (1 + r) * (balanceAfter r m a n - (a * (1 + r) ^ n - m * annuitySum r n))
            + (roundTo 2 (balanceAfter r m a n * r) - balanceAfter r m a n * r) := by
        rw [hstep, annuitySum, pow_succ]
        ring
      rw [hkey]
      have habs := abs_add
        ((1 + r) * (balanceAfter r m a n - (a * (1 + r) ^ n - m * annuitySum r n)))
        (roundTo 2 (balanceAfter r m a n * r) - balanceAfter r m a n * r)
      rw [abs_mul, abs_of_pos h1r] at habs
      have hmul := mul_le_mul_of_nonneg_left ih (le_of_lt h1r)
      have hSn : annuitySum r (n + 1) = annuitySum r n * (1 + r) + 1 := rfl
      rw [hSn]
      linarith

/-- C9: for any 2-decimal amount and `periods ≥ 1`, the capital column of the
schedule sums to the financed amount up to `annuitySum periods / 100` (i.e.,
at most a half-cent of rounding per period on the installment plus a half-cent
per period of interest rounding, compounded); the final displayed remaining
capital is non-negative and below the same bound; and for the period counts
the application offers (`periods ≤ 9`) that bound is below 10 cents. -/
theorem C9_schedule_roundtrip (amount : ℚ) (h0 : 0 ≤ amount)
    (ha : IsRounded 2 amount) (p : ℤ) (hp : 1 ≤ p)
    (inst : ℚ) (rows : List InstallmentRow)
    (h : defaultCalculator.compute_monthly_installments amount p = .ok (inst, rows)) :
    |(rows.map InstallmentRow.capital).sum - amount|
        ≤ annuitySum PERIODIC_RATE p.toNat / 100 ∧
    (∀ lastRow, rows.getLast? = some lastRow →
      0 ≤ lastRow.remaining_capital ∧
        lastRow.remaining_capital ≤ annuitySum PERIODIC_RATE p.toNat / 100) ∧
    (p ≤ 9 → annuitySum PERIODIC_RATE p.toNat / 100 ≤ 1 / 10) := by
  have hr : (0 : ℚ) < PERIODIC_RATE := by norm_num [PERIODIC_RATE]
  have hrne : PERIODIC_RATE ≠ 0 := ne_of_gt hr
  rw [CreditCalculator.compute_monthly_installments,
    compute_rate_factor_eq_ok default_periodic_rate_pos hp] at h
  simp only [Except.map, Except.ok.injEq, Prod.mk.injEq] at h
  obtain ⟨hinst, hrows⟩ := h
  subst hrows
  subst hinst
  rw [show defaultCalculator.periodic_rate = PERIODIC_RATE from rfl]
  set n := p.toNat with hn
  have hn1 : 1 ≤ n := by omega
  set d : ℚ := rate_factor_val defaultCalculator p * amount with hd
  set m : ℚ := roundTo 2 d with hmdef
  have hm : IsRounded 2 m := isRounded_roundTo 2 d
  have hSpos := annuitySum_nonneg PERIODIC_RATE (le_of_lt hr) n
  -- exact telescoping of the capital column
  have hsum := sum_capital_telescope PERIODIC_RATE m hm n 1 amount ha
  -- the exact-arithmetic target collapses via the annuity identity
  have hzc : ((n : ℤ)) = p := Int.toNat_of_nonneg (by omega)
  have hz : (1 + PERIODIC_RATE) ^ (p : ℤ) = (1 + PERIODIC_RATE) ^ (n : ℕ) := by
    rw [← hzc, zpow_natCast]
  have hpow : 1 < (1 + PERIODIC_RATE) ^ (n : ℕ) :=
    one_lt_pow₀ (by linarith) (by omega)
  have hS : annuitySum PERIODIC_RATE n = ((1 + PERIODIC_RATE) ^ n - 1) / PERIODIC_RATE :=
    annuitySum_eq PERIODIC_RATE hrne n
  have hRS : rate_factor_val defaultCalculator p * annuitySum PERIODIC_RATE n
      = (1 + PERIODIC_RATE) ^ n := by
    have hne1 : (1 + PERIODIC_RATE) ^ (n : ℕ) - 1 ≠ 0 := by linarith
    show PERIODIC_RATE * (1 + PERIODIC_RATE) ^ (p : ℤ)
        / ((1 + PERIODIC_RATE) ^ (p : ℤ) - 1) * annuitySum PERIODIC_RATE n
      = (1 + PERIODIC_RATE) ^ n
    rw [hz, hS]
    field_simp
  have htn : amount * (1 + PERIODIC_RATE) ^ n - m * annuitySum PERIODIC_RATE n
      = (d - m) * annuitySum PERIODIC_RATE n := by
    have hda : amount * (1 + PERIODIC_RATE) ^ n = d * annuitySum PERIODIC_RATE n := by
      rw [hd, ← hRS]
      ring
    rw [hda]
    ring
  have herr := balanceAfter_error PERIODIC_RATE m amount hr hm ha n
  have hdm : |d - m| ≤ 1 / 200 := by
    rw [abs_sub_comm]
    exact abs_roundTo2_sub_le d
  have ht : |amount * (1 + PERIODIC_RATE) ^ n - m * annuitySum PERIODIC_RATE n|
      ≤ annuitySum PERIODIC_RATE n / 200 := by
    rw [htn, abs_mul, abs_of_nonneg hSpos]
    calc |d - m| * annuitySum PERIODIC_RATE n
        ≤ 1 / 200 * annuitySum PERIODIC_RATE n := by
          exact mul_le_mul_of_nonneg_right hdm hSpos
      _ = annuitySum PERIODIC_RATE n / 200 := by ring
  have hb : |balanceAfter PERIODIC_RATE m amount n| ≤ annuitySum PERIODIC_RATE n / 100 := by
    have habs := abs_add
      (balanceAfter PERIODIC_RATE m amount n
        - (amount * (1 + PERIODIC_RATE) ^ n - m * annuitySum PERIODIC_RATE n))
      (amount * (1 + PERIODIC_RATE) ^ n - m * annuitySum PERIODIC_RATE n)
    rw [sub_add_cancel] at habs
    linarith
  refine ⟨?_, ?_, ?_⟩
  · rw [hsum]
    calc |amount - balanceAfter PERIODIC_RATE m amount n - amount|
        = |balanceAfter PERIODIC_RATE m amount n| := by rw [abs_sub_comm]; congr 1; ring
      _ ≤ annuitySum PERIODIC_RATE n / 100 := hb
  · intro lastRow hlast
    have hlen : (installmentRows PERIODIC_RATE m n 1 amount).length = n :=
      installmentRows_length PERIODIC_RATE m n 1 amount
    have hnil : installmentRows PERIODIC_RATE m n 1 amount ≠ [] := by
      intro hcontra
      rw [hcontra] at hlen
      simp at hlen
      omega
    rw [List.getLast?_eq_getLast _ hnil] at hlast
    injection hlast with hlast
    have hidx : n - 1 < (installmentRows PERIODIC_RATE m n 1 amount).length := by
      rw [hlen]; omega
    have hgl := List.get_length_sub_one (l := installmentRows PERIODIC_RATE m n 1 amount)
      (by rw [hlen]; omega)
    rw [installmentRows_get] at hgl
    have hlast2 : lastRow = scheduleRow PERIODIC_RATE m (1 + ((installmentRows
        PERIODIC_RATE m n 1 amount).length - 1 : ℕ))
        (balanceAfter PERIODIC_RATE m amount ((installmentRows PERIODIC_RATE m n 1
          amount).length - 1)) := by
      rw [← hlast]
      exact hgl.symm
    rw [hlen] at hlast2
    have hsucc : n - 1 + 1 = n := by omega
    have hrem : remainingOf PERIODIC_RATE m (balanceAfter PERIODIC_RATE m amount (n - 1))
        = balanceAfter PERIODIC_RATE m amount n := by
      rw [← hsucc]
      rfl
    rw [hlast2]
    constructor
    · exact le_max_left 0 _
    · show max 0 (remainingOf PERIODIC_RATE m (balanceAfter PERIODIC_RATE m amount (n - 1)))
        ≤ annuitySum PERIODIC_RATE n / 100
      rw [hrem]
      refine max_le (by positivity) ?_
      exact le_trans (le_abs_self _) hb
  · intro hp9
    have hn9 : n ≤ 9 := by omega
    have hmono := annuitySum_mono PERIODIC_RATE (le_of_lt hr) hn9
    have h9 : annuitySum PERIODIC_RATE 9 ≤ 10 := by decide
    linarith

/-- Witness for C9 at `(9000, 3)`: the capital column sums to exactly `9000`
and the final remaining capital is exactly `0`, both within the proved bound. -/
theorem C9_witness :
    (0 ≤ (9000 : ℚ) ∧ IsRounded 2 9000 ∧ 1 ≤ (3 : ℤ) ∧
      defaultCalculator.compute_monthly_installments 9000 3 =
        .ok (306959 / 100,
          [⟨1, 306959 / 100, 10399 / 100, 14828 / 5, 30172 / 5⟩,
           ⟨2, 306959 / 100, 1743 / 25, 299987 / 100, 303453 / 100⟩,
           ⟨3, 306959 / 100, 1753 / 50, 303453 / 100, 0⟩])) ∧
    |(([⟨1, 306959 / 100, 10399 / 100, 14828 / 5, 30172 / 5⟩,
        ⟨2, 306959 / 100, 1743 / 25, 299987 / 100, 303453 / 100⟩,
        ⟨3, 306959 / 100, 1753 / 50, 303453 / 100, 0⟩] :
          List InstallmentRow).map InstallmentRow.capital).sum - 9000|
      ≤ annuitySum PERIODIC_RATE (3 : ℤ).toNat / 100 ∧
    ((3 : ℤ) ≤ 9 → annuitySum PERIODIC_RATE (3 : ℤ).toNat / 100 ≤ 1 / 10) :=
  ⟨⟨by decide, ⟨900000, by decide⟩, by decide, by decide⟩,
    (C9_schedule_roundtrip 9000 (by decide) ⟨900000, by decide⟩ 3 (by decide)
      (306959 / 100)
      [⟨1, 306959 / 100, 10399 / 100, 14828 / 5, 30172 / 5⟩,
       ⟨2, 306959 / 100, 1743 / 25, 299987 / 100, 303453 / 100⟩,
       ⟨3, 306959 / 100, 1753 / 50, 303453 / 100, 0⟩] (by decide)).1,
    (C9_schedule_roundtrip 9000 (by decide) ⟨900000, by decide⟩ 3 (by decide)
      (306959 / 100)
      [⟨1, 306959 / 100, 10399 / 100, 14828 / 5, 30172 / 5⟩,
       ⟨2, 306959 / 100, 1743 / 25, 299987 / 100, 303453 / 100⟩,
       ⟨3, 306959 / 100, 1753 / 50, 303453 / 100, 0⟩] (by decide)).2.2⟩

/-! ## C6: the value of the periodic rate -/

theorem one_add_taeg_real : (1 : ℝ) + (TAEG : ℚ) = 23 / 20 := by
  rw [TAEG]
  push_cast
  norm_num

theorem periodicRateExact_pow73 :
    ((1 + (TAEG : ℚ) : ℝ) ^ ((30 : ℝ) / 365)) ^ (73 : ℕ) = ((23 : ℝ) / 20) ^ (6 : ℕ) := by
  rw [one_add_taeg_real]
  calc (((23 : ℝ) / 20) ^ ((30 : ℝ) / 365)) ^ (73 : ℕ)
      = (((23 : ℝ) / 20) ^ ((30 : ℝ) / 365)) ^ ((73 : ℕ) : ℝ) :=
        (Real.rpow_natCast _ 73).symm
    _ = ((23 : ℝ) / 20) ^ ((30 : ℝ) / 365 * ((73 : ℕ) : ℝ)) :=
        (Real.rpow_mul (by norm_num) _ _).symm
    _ = ((23 : ℝ) / 20) ^ ((6 : ℕ) : ℝ) := by norm_num
    _ = ((23 : ℝ) / 20) ^ (6 : ℕ) := Real.rpow_natCast _ 6

theorem periodicRateExact_bounds :
    (0.0115535 : ℝ) < periodicRateExact ∧ periodicRateExact < 0.0115545 := by
  have hxpos : (0 : ℝ) < (1 + (TAEG : ℚ) : ℝ) ^ ((30 : ℝ) / 365) :=
    Real.rpow_pos_of_pos (by rw [one_add_taeg_real]; norm_num) _
  constructor
  · have h73 : (1.0115535 : ℝ) ^ (73 : ℕ)
        < ((1 + (TAEG : ℚ) : ℝ) ^ ((30 : ℝ) / 365)) ^ (73 : ℕ) := by
      rw [periodicRateExact_pow73]
      norm_num
    have := lt_of_pow_lt_pow_left₀ 73 hxpos.le h73
    rw [periodicRateExact]
    linarith
  · have h73 : ((1 + (TAEG : ℚ) : ℝ) ^ ((30 : ℝ) / 365)) ^ (73 : ℕ)
        < (1.0115545 : ℝ) ^ (73 : ℕ) := by
      rw [periodicRateExact_pow73]
      norm_num
    have := lt_of_pow_lt_pow_left₀ 73 (by norm_num : (0:ℝ) ≤ 1.0115545) h73
    rw [periodicRateExact]
    linarith

theorem roundTo6_periodicRateExact :
    roundTo 6 periodicRateExact = ((11554 : ℝ) / 1000000) := by
  obtain ⟨hlo, hhi⟩ := periodicRateExact_bounds
  have hylo : (11553.5 : ℝ) < periodicRateExact * 10 ^ 6 := by
    nlinarith
  have hyhi : periodicRateExact * 10 ^ 6 < (11554.5 : ℝ) := by
    nlinarith
  have hrhe : roundHalfEvenInt (periodicRateExact * 10 ^ 6) = 11554 := by
    have hfl : (11553 : ℤ) ≤ Int.floor (periodicRateExact * 10 ^ 6) := by
      apply Int.le_floor.mpr
      push_cast
      linarith
    have hfu : Int.floor (periodicRateExact * 10 ^ 6) ≤ 11554 := by
      have h2 : ((Int.floor (periodicRateExact * 10 ^ 6) : ℝ)) < 11555 :=
        lt_of_le_of_lt (Int.floor_le _) (by linarith)
      exact_mod_cast Int.lt_add_one_iff.mp (by exact_mod_cast h2)
    rcases (by omega : Int.floor (periodicRateExact * 10 ^ 6) = 11553 ∨
        Int.floor (periodicRateExact * 10 ^ 6) = 11554) with hc | hc
    · rw [roundHalfEvenInt, hc]
      have hy1 : ¬(periodicRateExact * 10 ^ 6 - ((11553 : ℤ) : ℝ) < 1 / 2) := by
        push_cast
        linarith
      rw [if_neg hy1]
      have hy2 : (1 / 2 : ℝ) < periodicRateExact * 10 ^ 6 - ((11553 : ℤ) : ℝ) := by
        push_cast
        linarith
      rw [if_pos hy2]
      decide
    · rw [roundHalfEvenInt, hc]
      have hy1 : periodicRateExact * 10 ^ 6 - ((11554 : ℤ) : ℝ) < 1 / 2 := by
        push_cast
        linarith
      rw [if_pos hy1]
  rw [roundTo, hrhe]
  norm_num

/-- C6 counterexample: the 6-decimal rounding of the exact periodic rate
`(1 + 0.15) ** (30/365) − 1` is *not* `0.011600`. -/
theorem C6_counterexample : roundTo 6 periodicRateExact ≠ ((0.0116 : ℝ)) := by
  rw [roundTo6_periodicRateExact]
  norm_num

/-- C6 (amended): the periodic rate fixed at construction time equals
`round((1 + 0.15) ** (30/365) − 1, 6)`, and this value is `0.011554`
(not `0.011600`): the real-valued rounding of the exact rate equals the
rational constant `PERIODIC_RATE = 11554/1000000` that the default
calculator stores. -/
theorem C6_periodic_rate_value :
    roundTo 6 periodicRateExact = (PERIODIC_RATE : ℝ) ∧
    PERIODIC_RATE = 11554 / 1000000 ∧
    defaultCalculator.periodic_rate = PERIODIC_RATE := by
  refine ⟨?_, rfl, rfl⟩
  rw [roundTo6_periodicRateExact, PERIODIC_RATE]
  push_cast
  norm_num
